import Mathlib

/-!
Verification of the webToMd crawl/fetch/extract engine.

This file gives a shallow embedding of the Python source under
`backend/app` (validators, cache, extractor, scraper) and proves or
refutes the frozen specification claims against it.  Network and
third-party-library effects are represented by explicit oracle
parameters (`World`), and machine-level details such as md5
fingerprinting are modelled as stated in the doc comments.
-/

namespace WebToMd

/-! ### Character/string helpers (shared by the embeddings) -/

/-- Hexadecimal digit value, as used by `urllib.parse.unquote`. -/
def hexVal (c : Char) : Option Nat :=
  if '0' ≤ c ∧ c ≤ '9' then some (c.toNat - '0'.toNat)
  else if 'a' ≤ c ∧ c ≤ 'f' then some (c.toNat - 'a'.toNat + 10)
  else if 'A' ≤ c ∧ c ≤ 'F' then some (c.toNat - 'A'.toNat + 10)
  else none

/-- Models `urllib.parse.unquote` restricted to ASCII percent-sequences:
a `%XY` with hex digits and value < 128 decodes to that character, any
other `%` is kept verbatim.  (The library additionally assembles
multi-byte UTF-8 sequences, which no claim here exercises.) -/
def unquoteChars : List Char → List Char
  | [] => []
  | '%' :: c1 :: c2 :: rest =>
    match hexVal c1, hexVal c2 with
    | some h1, some h2 =>
      if 16 * h1 + h2 < 128 then Char.ofNat (16 * h1 + h2) :: unquoteChars rest
      else '%' :: unquoteChars (c1 :: c2 :: rest)
    | _, _ => '%' :: unquoteChars (c1 :: c2 :: rest)
  | c :: rest => c :: unquoteChars rest

/-- Python `str.startswith`, over the character data. -/
def strStartsWith (s p : String) : Bool :=
  p.data.isPrefixOf s.data

/-- Python `str.lower`, restricted to ASCII case folding. -/
def lowerStr (s : String) : String :=
  ⟨s.data.map Char.toLower⟩

/-- Characters kept by the control-character filter of `sanitize_input`
(`ord(char) >= 32 or char in '\t\n\r'`). -/
def keepChar (c : Char) : Bool :=
  32 ≤ c.toNat || c == '\t' || c == '\n' || c == '\r'

/-- Whitespace stripped by Python `str.strip` (after the control filter
only space, tab, LF and CR can remain at the ends). -/
def isStripChar (c : Char) : Bool :=
  c == ' ' || c == '\t' || c == '\n' || c == '\r'

/-- Python `str.strip`, over the character data. -/
def trimChars (cs : List Char) : List Char :=
  ((cs.dropWhile isStripChar).reverse.dropWhile isStripChar).reverse

/-- Embeds `validators.sanitize_input`: drop NUL bytes, percent-decode
once, drop control characters (keeping tab/LF/CR), and strip. -/
def sanitize_input (s : String) : String :=
  ⟨trimChars ((unquoteChars (s.data.filter (fun c => c != '\x00'))).filter keepChar)⟩

/-! ### SQL-injection screen (`validators.contains_sql_injection`) -/

/-- Word character in the sense of the regex `\b` boundary (`[A-Za-z0-9_]`). -/
def isWordChar (c : Char) : Bool :=
  c.isAlphanum || c == '_'

/-- Boundary holds before a match position given the previous character. -/
def boundaryBefore : Option Char → Bool
  | none => true
  | some p => !isWordChar p

/-- Boundary holds after a match given the remaining characters. -/
def boundaryAfter : List Char → Bool
  | [] => true
  | c :: _ => !isWordChar c

/-- Scans for a whole-word occurrence of `kw` (a word-character keyword),
carrying the previous character for the left boundary. -/
def hasWordAux (kw : List Char) : Option Char → List Char → Bool
  | _, [] => false
  | prev, c :: rest =>
    (boundaryBefore prev && kw.isPrefixOf (c :: rest)
      && boundaryAfter ((c :: rest).drop kw.length))
    || hasWordAux kw (some c) rest

/-- Whole-word occurrence of `kw` in `cs` (regex `\bkw\b`). -/
def hasWord (kw : String) (cs : List Char) : Bool :=
  hasWordAux kw.data none cs

/-- Substring containment over character data. -/
def containsSub (needle : List Char) : List Char → Bool
  | [] => needle.isEmpty
  | c :: rest => needle.isPrefixOf (c :: rest) || containsSub needle rest

/-- Checks that a `=` occurs before the next newline (regex `.*=` with
`.` not matching a newline). -/
def eqBeforeNewline : List Char → Bool
  | [] => false
  | '=' :: _ => true
  | '\n' :: _ => false
  | _ :: rest => eqBeforeNewline rest

/-- Scans for a whole-word occurrence of `kw` followed by a `=` on the
same line (regex `\bkw\b.*=`). -/
def wordThenEqAux (kw : List Char) : Option Char → List Char → Bool
  | _, [] => false
  | prev, c :: rest =>
    (boundaryBefore prev && kw.isPrefixOf (c :: rest)
      && boundaryAfter ((c :: rest).drop kw.length)
      && eqBeforeNewline ((c :: rest).drop kw.length))
    || wordThenEqAux kw (some c) rest

/-- The whole-word SQL keywords of the first injection pattern. -/
def sqlKeywords : List String :=
  ["SELECT", "INSERT", "UPDATE", "DELETE", "DROP", "CREATE", "ALTER",
   "EXEC", "EXECUTE", "UNION", "DECLARE"]

/-- Embeds `validators.contains_sql_injection`: the five case-insensitive
regex patterns of `SQL_INJECTION_PATTERNS`, evaluated on the uppercased
input (ASCII case model). -/
def contains_sql_injection (s : String) : Bool :=
  if s = "" then false
  else
    let u := s.data.map Char.toUpper
    (sqlKeywords.any (fun kw => hasWord kw u))
    || (["--", ";", "/*", "*/", "XP_", "SP_"].any (fun p => containsSub p.data u))
    || (wordThenEqAux "OR".data none u || wordThenEqAux "AND".data none u)
    || (["'", "--", ";", "||", "*"].any (fun p => containsSub p.data u))
    || (hasWord "SCRIPT" u || containsSub "<SCRIPT".data u
        || containsSub "JAVASCRIPT:".data u)

/-! ### URL parsing (`urllib.parse.urlparse`, restricted) -/

/-- Stops the netloc at the first `/`, `?` or `#`, as `urlsplit` does. -/
def hostStop (cs : List Char) : List Char :=
  cs.takeWhile (fun c => !(c == '/' || c == '?' || c == '#'))

/-- Models `urlparse(url).scheme` for lower-case http/https URLs; other
inputs yield `""`, which `is_valid_url` rejects just as the source
rejects their actual scheme. -/
def schemeOf (url : String) : String :=
  if strStartsWith url "http://" then "http"
  else if strStartsWith url "https://" then "https"
  else ""

/-- Models `urlparse(url).netloc` for lower-case http/https URLs: the
text between `//` and the next `/`, `?` or `#` (ports included). -/
def netlocOf (url : String) : String :=
  if strStartsWith url "http://" then ⟨hostStop (url.data.drop 7)⟩
  else if strStartsWith url "https://" then ⟨hostStop (url.data.drop 8)⟩
  else ""

/-! ### The third-party `validators.url` predicate -/

/-- Splits a character list on a separator. -/
def splitOnChar (sep : Char) : List Char → List (List Char)
  | [] => [[]]
  | c :: rest =>
    if c == sep then [] :: splitOnChar sep rest
    else
      match splitOnChar sep rest with
      | g :: gs => (c :: g) :: gs
      | [] => [[c]]

/-- Dotted-quad IPv4 literal: four groups of at most three digits each
valued at most 255. -/
def isIPv4 (host : List Char) : Bool :=
  let gs := splitOnChar '.' host
  gs.length == 4 && gs.all (fun g =>
    !g.isEmpty && g.length ≤ 3 && g.all Char.isDigit
      && (g.foldl (fun n c => 10 * n + (c.toNat - '0'.toNat)) 0) ≤ 255)

/-- Host name with at least two labels of alphanumeric/hyphen characters
whose final label is two or more letters. -/
def isDomainHost (host : List Char) : Bool :=
  let gs := splitOnChar '.' host
  2 ≤ gs.length
  && gs.all (fun g => !g.isEmpty && g.all (fun c => c.isAlphanum || c == '-'))
  && (match gs.getLast? with
      | some tld => 2 ≤ tld.length && tld.all Char.isAlpha
      | none => false)

/-- Models the third-party `validators.url` predicate (its default
`public=False` form, which accepts localhost and private addresses),
restricted to the shape the claims exercise: an `http`/`https`/`ftp`
scheme, then a host that is `localhost`, an IPv4 literal or a domain
name, an optional `:` port of two to five digits, and an optional
path/query/fragment remainder free of whitespace.  Userinfo and
non-ASCII hosts are not modelled. -/
def validatorsUrl (url : String) : Bool :=
  let afterScheme : Option (List Char) :=
    if strStartsWith url "http://" then some (url.data.drop 7)
    else if strStartsWith url "https://" then some (url.data.drop 8)
    else if strStartsWith url "ftp://" then some (url.data.drop 6)
    else none
  match afterScheme with
  | none => false
  | some cs =>
    let hp := hostStop cs
    let rest := cs.drop hp.length
    let host := hp.takeWhile (fun c => c != ':')
    let port := hp.drop (host.length + 1)
    let hostOk := host == "localhost".data || isIPv4 host || isDomainHost host
    let portOk :=
      if hp.length == host.length then true
      else 2 ≤ port.length && port.length ≤ 5 && port.all Char.isDigit
    hostOk && portOk && rest.all (fun c => !c.isWhitespace)

/-! ### `validators.is_valid_url` and `validators.validate_and_sanitize_url` -/

/-- The loopback/unspecified literals blocked by `is_valid_url`. -/
def blockedHosts : List String :=
  ["localhost", "127.0.0.1", "0.0.0.0", "::1"]

/-- The netloc prefixes of the private-range regex
`^(10\.|172\.(1[6-9]|2[0-9]|3[01])\.|192\.168\.)`, enumerated. -/
def privateNetlocStarts : List String :=
  ["10.", "172.16.", "172.17.", "172.18.", "172.19.", "172.20.",
   "172.21.", "172.22.", "172.23.", "172.24.", "172.25.", "172.26.",
   "172.27.", "172.28.", "172.29.", "172.30.", "172.31.", "192.168."]

/-- True when the netloc matches the private-range regex. -/
def isPrivateNetloc (netloc : String) : Bool :=
  privateNetlocStarts.any (fun p => strStartsWith netloc p)

/-- Embeds `validators.is_valid_url`: the length, `validators.url`,
scheme, netloc-length, loopback-literal and private-range checks, in the
source's early-return order. -/
def is_valid_url (url : String) : Bool :=
  if 2048 < url.length then false
  else if url.length < 10 then false
  else if validatorsUrl url = false then false
  else if ¬ (schemeOf url = "http" ∨ schemeOf url = "https") then false
  else if netlocOf url = "" ∨ (netlocOf url).length < 3 then false
  else if lowerStr (netlocOf url) ∈ blockedHosts then false
  else if isPrivateNetloc (netlocOf url) = true then false
  else true

/-- Embeds `validators.validate_and_sanitize_url`: sanitize, screen for
injection patterns, prepend `https://` when no scheme is present, then
validate; returns `(is_valid, sanitized_url, error_message)`. -/
def validate_and_sanitize_url (url : String) : Bool × String × String :=
  if url = "" then (false, "", "URL is required")
  else
    let s := sanitize_input url
    if contains_sql_injection s = true then
      (false, "", "Invalid URL: contains prohibited characters or patterns")
    else
      let s2 := if strStartsWith s "http://" || strStartsWith s "https://"
                then s else "https://" ++ s
      if is_valid_url s2 = false then (false, "", "Invalid URL format")
      else (true, s2, "")

/-! ### Result values (`scraper.scrape_url` response dicts) -/

/-- Models the response dict built by `scrape_url` (and stored in the
cache).  Missing keys are modelled by the defaults the source reads
back via `dict.get`: `links` defaults to `[]`, `error` to absent. -/
structure PageResult where
  url : String := ""
  status : String := ""
  title : String := ""
  description : String := ""
  markdown : String := ""
  links : List String := []
  error : Option String := none
  deriving DecidableEq, Repr

/-! ### Result cache (`utils/cache.py`) -/

/-- Configured `Config.CACHE_TTL` (seconds). -/
def CACHE_TTL : Nat := 3600

/-- Models the Redis backing store: availability of the client (the
module-level `redis_client`, `None` when unreachable), a clock in
seconds, and per-key values with absolute expiry times.  The JSON
`dumps`/`loads` round trip is the identity on these dicts, so values
are stored directly. -/
structure CacheState where
  available : Bool
  clock : Nat
  store : List (String × PageResult × Nat)
  deriving DecidableEq, Repr

/-- First-match lookup in the store; a later `setex` on the same key
prepends, shadowing the old entry exactly as Redis overwrites it. -/
def storeLookup : List (String × PageResult × Nat) → String → Option (PageResult × Nat)
  | [], _ => none
  | (k, v, e) :: rest, key => if k = key then some (v, e) else storeLookup rest key

/-- Embeds `cache.cache_get`: `None` when the client is disabled, else
the stored value unless the key has expired (Redis drops the key once
its TTL elapses, modelled by the clock comparison). -/
def cache_get (c : CacheState) (key : String) : Option PageResult :=
  if c.available then
    match storeLookup c.store key with
    | some (v, e) => if c.clock < e then some v else none
    | none => none
  else none

/-- Embeds `cache.cache_set`: a no-op returning `False` when the client
is disabled, else `setex(key, ttl, value)` with expiry `clock + ttl`;
the source's `ttl = ttl or Config.CACHE_TTL` replaces both a missing
and a zero ttl by the configured default. -/
def cache_set (c : CacheState) (key : String) (v : PageResult) (ttl : Option Nat) :
    Bool × CacheState :=
  if c.available then
    let t := match ttl with
      | some n => if n = 0 then CACHE_TTL else n
      | none => CACHE_TTL
    (true, { c with store := (key, v, c.clock + t) :: c.store })
  else (false, c)

/-- Passage of `dt` seconds of real time. -/
def advanceClock (dt : Nat) (c : CacheState) : CacheState :=
  { c with clock := c.clock + dt }

/-! ### HTML documents and the content extractor (`core/extractor.py`) -/

/-- Models the element tree BeautifulSoup produces from the raw HTML
(`BeautifulSoup(html, 'lxml')` is a deterministic parse; the claims
below are stated over the parsed tree). -/
inductive Node where
  | text (s : String)
  | elem (tag : String) (attrs : List (String × String)) (children : List Node)

/-- First value of an attribute, as `tag['attr']` / `tag.get(attr)`. -/
def lookupAttr : List (String × String) → String → Option String
  | [], _ => none
  | (k, v) :: rest, key => if k = key then some v else lookupAttr rest key

mutual
/-- Models `soup.get_text()`: concatenation of every descendant string. -/
def nodeText : Node → String
  | .text s => s
  | .elem _ _ children => listText children
/-- Text of a forest, in document order. -/
def listText : List Node → String
  | [] => ""
  | n :: rest => nodeText n ++ listText rest
end

mutual
/-- Models `soup.find(tag)`: the first element with that tag in
depth-first document order. -/
def findFirstNode (tag : String) : Node → Option Node
  | .text _ => none
  | .elem t a c => if t = tag then some (.elem t a c) else findFirstList tag c
/-- First matching element inside a forest. -/
def findFirstList (tag : String) : List Node → Option Node
  | [] => none
  | n :: rest =>
    match findFirstNode tag n with
    | some r => some r
    | none => findFirstList tag rest
end

mutual
/-- Models `soup.find('meta', attrs={'name': 'description'})`,
returning the matching element's attributes. -/
def findMetaDescNode : Node → Option (List (String × String))
  | .text _ => none
  | .elem t a c =>
    if t = "meta" ∧ lookupAttr a "name" = some "description" then some a
    else findMetaDescList c
/-- First matching meta element inside a forest. -/
def findMetaDescList : List Node → Option (List (String × String))
  | [] => none
  | n :: rest =>
    match findMetaDescNode n with
    | some r => some r
    | none => findMetaDescList rest
end

mutual
/-- Models `tag.decompose()` over `soup([tags])` elementwise: a listed
element vanishes, any other node keeps its (filtered) children. -/
def removeTagsNode (tags : List String) : Node → Option Node
  | .text s => some (.text s)
  | .elem t a c =>
    if tags.contains t then none
    else some (.elem t a (removeTagsList tags c))
/-- Removal over a forest. -/
def removeTagsList (tags : List String) : List Node → List Node
  | [] => []
  | n :: rest =>
    match removeTagsNode tags n with
    | some n2 => n2 :: removeTagsList tags rest
    | none => removeTagsList tags rest
end

/-- Models `soup([tags])` decomposition from the document root (the
root is the document object, which is never itself removed). -/
def removeTags (tags : List String) : Node → Node
  | .text s => .text s
  | .elem t a c => .elem t a (removeTagsList tags c)

mutual
/-- Models the configured `html2text` conversion restricted to the
constructs these claims exercise: h1–h3 become markdown headings
followed by a blank line, `p` a paragraph followed by a blank line,
`br` a line break, anchors with an `href` become inline links, text
passes through, and every other element contributes its children's
conversion unchanged — in particular nav, footer, aside and header
content is kept. -/
def nodeMarkdown : Node → String
  | .text s => s
  | .elem t a c =>
    let inner := listMarkdown c
    if t = "h1" then "# " ++ inner ++ "\n\n"
    else if t = "h2" then "## " ++ inner ++ "\n\n"
    else if t = "h3" then "### " ++ inner ++ "\n\n"
    else if t = "p" then inner ++ "\n\n"
    else if t = "br" then "\n"
    else if t = "a" then
      match lookupAttr a "href" with
      | some h => "[" ++ inner ++ "](" ++ h ++ ")"
      | none => inner
    else inner
/-- Conversion of a forest, in document order. -/
def listMarkdown : List Node → String
  | [] => ""
  | n :: rest => nodeMarkdown n ++ listMarkdown rest
end

/-- Emits a run of newlines, collapsing runs of four or more to exactly
three (`re.sub(r'\n\x7b4,\x7d', '\n\n\n', markdown)`). -/
def emitNl (n : Nat) : List Char :=
  List.replicate (if 4 ≤ n then 3 else n) '\n'

/-- Collapses newline runs, carrying the length of the current run. -/
def collapseNlAux : Nat → List Char → List Char
  | n, [] => emitNl n
  | n, '\n' :: rest => collapseNlAux (n + 1) rest
  | n, c :: rest => emitNl n ++ (c :: collapseNlAux 0 rest)

/-- Embeds `ContentExtractor._clean_markdown`: collapse runs of four or
more newlines to three, then strip. -/
def clean_markdown (s : String) : String :=
  ⟨trimChars (collapseNlAux 0 s.data)⟩

/-- Keeps a character list through its last `/` (empty if none). -/
def throughLastSlash (cs : List Char) : List Char :=
  (cs.reverse.dropWhile (fun c => c != '/')).reverse

/-- Models `urllib.parse.urljoin` restricted to the reference shapes
the claims exercise: absolute http(s) references are returned
unchanged, root-relative references are resolved against the base's
scheme and netloc, and other references replace everything after the
last `/` of the base path (`..`, query-only and fragment-only
references are not modelled). -/
def urljoin (base href : String) : String :=
  if strStartsWith href "http://" || strStartsWith href "https://" then href
  else if strStartsWith href "/" then
    schemeOf base ++ "://" ++ netlocOf base ++ href
  else
    let pre := schemeOf base ++ "://" ++ netlocOf base
    let path := base.data.drop pre.length
    let kept := throughLastSlash path
    if kept.isEmpty then pre ++ "/" ++ href else pre ++ String.mk kept ++ href

mutual
/-- Models `soup.find_all('a', href=True)`: the `href` values of all
anchors, in depth-first document order. -/
def collectHrefs : Node → List String
  | .text _ => []
  | .elem t a c =>
    (if t = "a" then
      match lookupAttr a "href" with
      | some h => [h]
      | none => []
     else []) ++ collectHrefsList c
/-- Hrefs of a forest. -/
def collectHrefsList : List Node → List String
  | [] => []
  | n :: rest => collectHrefs n ++ collectHrefsList rest
end

/-- Models `list(set(xs))` for strings: duplicate removal.  CPython's
set iteration order is a fixed function of the inserted strings within
one process; it is modelled as first-occurrence order. -/
def dedupFirstAux : List String → List String → List String
  | [], _ => []
  | x :: xs, seen =>
    if x ∈ seen then dedupFirstAux xs seen
    else x :: dedupFirstAux xs (x :: seen)

/-- Duplicate removal keeping first occurrences. -/
def dedupFirst (l : List String) : List String :=
  dedupFirstAux l []

/-- Embeds `ContentExtractor._extract_links`: every anchor href resolved
against the source URL, kept when its netloc equals the source's
netloc, then deduplicated. -/
def extract_links (soup : Node) (base_url : String) : List String :=
  dedupFirst (((collectHrefs soup).map (urljoin base_url)).filter
    (fun full => netlocOf full == netlocOf base_url))

/-- The extraction result dict of `ContentExtractor.extract_content`. -/
structure Extraction where
  title : String
  description : String
  markdown : String
  links : List String
  url : String
  deriving DecidableEq, Repr

set_option linter.unusedVariables false in
/-- Embeds `ContentExtractor.extract_content`: title from the first
`<title>`, description from `<meta name="description">`, then
script/style/noscript removal, markdown conversion of the `<body>` (or
the whole tree when absent), cleanup, and internal-link extraction.
The `detailed` parameter is accepted by the source but never read. -/
def extract_content (soup : Node) (url : String) (detailed : Bool) : Extraction :=
  let title := match findFirstNode "title" soup with
    | some t => ⟨trimChars (nodeText t).data⟩
    | none => ""
  let description := match findMetaDescNode soup with
    | some attrs => (lookupAttr attrs "content").getD ""
    | none => ""
  let stripped := removeTags ["script", "style", "noscript"] soup
  let body := match findFirstNode "body" stripped with
    | some b => b
    | none => stripped
  let markdown := clean_markdown (nodeMarkdown body)
  let links := extract_links stripped url
  { title := title, description := description, markdown := markdown,
    links := links, url := url }

/-- Fixture for C4: a page whose body holds a `<nav>` element and a
paragraph of main content. -/
def c4NavDoc : Node :=
  .elem "html" []
    [.elem "body" []
      [.elem "nav" [] [.text "NAVCONTENT"], .elem "p" [] [.text "MAIN"]]]

/-- Fixture for C8: a page with a title, a meta description, and
internal, duplicate and external anchors. -/
def c8Doc : Node :=
  .elem "html" []
    [.elem "head" []
      [.elem "title" [] [.text " Page Title "],
       .elem "meta" [("name", "description"), ("content", "A page")] []],
     .elem "body" []
      [.elem "h1" [] [.text "Heading"],
       .elem "p" [] [.text "Body text ", .elem "a" [("href", "/x")] [.text "x"]],
       .elem "a" [("href", "https://ex.example/y")] [.text "y"],
       .elem "a" [("href", "/x")] [.text "x again"],
       .elem "a" [("href", "https://other.example/z")] [.text "ext"]]]

/-! ### The scraper (`core/scraper.py`) -/

/-- Outcome of one fetch strategy for one URL: the title, visible text
and link list its block produces, or the failure reason.  For the
ZenRows strategy a failure covers both a `success=False` return of
`zenrows_scrape` and an exception; for the requests fallback a failure
is the message of the exception raised anywhere in its block (HTTP
error, timeout, parser failure, or the garbled-content guard). -/
inductive FetchOutcome where
  | ok (title text : String) (links : List String)
  | fail (err : String)

/-- The environment of one crawl: everything the source reads from the
network, configuration or thread scheduler, fixed as oracles.
`schedule` models the completion order in which `as_completed` yields
the initially submitted futures: the iterator snapshots the future set
when it starts, so futures submitted during the drain are executed by
the pool at executor shutdown but are never yielded, and their results
never reach the report. -/
structure World where
  zenrowsKey : Bool
  zenrows : String → FetchOutcome
  fallback : String → FetchOutcome
  llmEnabled : Bool
  llmClean : String → String → String
  sitemapOk : String → Bool
  sitemapFound : String → List String
  crash : String → Option String
  schedule : List String → List String

/-- The options dict of one crawl request (`dict.get` defaults are
applied at the read sites, as in the source). -/
structure Options where
  maxPages : Option Nat := none
  crawlSubpages : Option Bool := none
  followSitemap : Option Bool := none
  enableDetailedResponse : Bool := false
  llmFilter : Bool := false

/-- Option-dependent suffix of the cache key (`key_parts`). -/
def optsSuffix (opts : Options) : String :=
  (if opts.enableDetailedResponse then "|detailed" else "")
    ++ (if opts.llmFilter then "|llm" else "")

/-- Embeds `WebScraper._get_cache_key`: the `|`-joined key parts.  The
md5 hex digest is modelled as the identity fingerprint on the key
string (the digest is treated as collision-free). -/
def cacheKeyString (url : String) (opts : Options) : String :=
  url ++ optsSuffix opts

/-- Builds the success `response_data` dict of `scrape_url` (LLM
cleanup applied when enabled) and writes it through to the cache. -/
def buildResponse (w : World) (url : String) (opts : Options) (cache : CacheState)
    (title text : String) (links : List String) : PageResult × CacheState :=
  let md := if opts.llmFilter && w.llmEnabled then w.llmClean text url else text
  let r : PageResult := { url := url, status := "success", title := title,
                          description := "", markdown := md, links := links }
  (r, (cache_set cache (cacheKeyString url opts) r none).2)

/-- Embeds `WebScraper.scrape_url`: cache lookup, then ZenRows when a
key is configured, then the requests fallback; when both strategies
fail the error dict carries only the fallback's exception message, and
the cache is left untouched. -/
def scrape_url (w : World) (url : String) (opts : Options) (cache : CacheState) :
    PageResult × CacheState :=
  match cache_get cache (cacheKeyString url opts) with
  | some v => (v, cache)
  | none =>
    let zres : Option (String × String × List String) :=
      if w.zenrowsKey then
        match w.zenrows url with
        | .ok t x l => some (t, x, l)
        | .fail _ => none
      else none
    match zres with
    | some (t, x, l) => buildResponse w url opts cache t x l
    | none =>
      match w.fallback url with
      | .ok t x l => buildResponse w url opts cache t x l
      | .fail e =>
        ({ url := url, status := "error",
           error := some ("All scraping methods failed: " ++ e) }, cache)

/-- State of the drain loop of `scrape_website`: the accumulated
results, the `discovered_urls` set, the futures submitted mid-crawl
(never yielded by the snapshotted `as_completed` iterator), and the
shared cache. -/
structure CrawlState where
  results : List PageResult
  discovered : List String
  pending : List String
  cache : CacheState

/-- Embeds the link-discovery block: each link not yet discovered is
added to `discovered_urls` and submitted as a new future while the
set stays below `max_pages`. -/
def addLinks (maxPages : Nat) : List String → CrawlState → CrawlState
  | [], st => st
  | l :: ls, st =>
    if l ∉ st.discovered ∧ st.discovered.length < maxPages then
      addLinks maxPages ls
        { st with discovered := st.discovered ++ [l], pending := st.pending ++ [l] }
    else addLinks maxPages ls st

/-- Body of the drain loop for a future that completed normally: the
scrape runs against the current cache, its result is appended, and
when subpage crawling is on and the discovered set is below the budget
its links are fed to the discovery block. -/
def stepAfterScrape (w : World) (opts : Options) (maxPages : Nat) (crawlSubpages : Bool)
    (url : String) (st : CrawlState) : CrawlState :=
  let rc := scrape_url w url opts st.cache
  let st1 : CrawlState := { st with results := st.results ++ [rc.1], cache := rc.2 }
  if crawlSubpages ∧ st1.discovered.length < maxPages
  then addLinks maxPages rc.1.links st1 else st1

/-- Embeds the `for future in as_completed(...)` loop over the
initially submitted futures, serialized in completion order: a future
whose callable raised is turned into an error entry, any other is
handled by `stepAfterScrape`. -/
def drainLoop (w : World) (opts : Options) (maxPages : Nat) (crawlSubpages : Bool) :
    List String → CrawlState → CrawlState
  | [], st => st
  | url :: rest, st =>
    match w.crash url with
    | some e =>
      drainLoop w opts maxPages crawlSubpages rest
        { st with results := st.results
            ++ [{ url := url, status := "error", error := some e }] }
    | none =>
      drainLoop w opts maxPages crawlSubpages rest
        (stepAfterScrape w opts maxPages crawlSubpages url st)

/-- Models the executor shutdown at the end of the `with` block: the
mid-crawl futures still run to completion (their cache writes happen)
but their results are discarded. -/
def runPending (w : World) (opts : Options) : List String → CacheState → CacheState
  | [], c => c
  | url :: rest, c =>
    match w.crash url with
    | some _ => runPending w opts rest c
    | none => runPending w opts rest (scrape_url w url opts c).2

/-- Embeds `SitemapParser.get_urls_from_sitemap`: the base URL plus the
URLs accumulated from the sitemap traversal (an oracle), as the
deduplicated set `all_urls` truncated to `max_urls`. -/
def get_urls_from_sitemap (w : World) (base_url : String) (max_urls : Nat) : List String :=
  (dedupFirst (base_url :: w.sitemapFound base_url)).take max_urls

/-- The summary dict returned by `scrape_website`. -/
structure CrawlReport where
  baseUrl : String
  totalPages : Nat
  successful : Nat
  failed : Nat
  results : List PageResult
  deriving DecidableEq, Repr

/-- The effective page budget: `min(options.get('maxPages', 50), 500)`. -/
def effectiveMaxPages (opts : Options) : Nat :=
  min (opts.maxPages.getD 50) 500

/-- The `urls_to_scrape` list at submission time: the sitemap seed when
enabled and the parser does not raise, else `[base_url]`, truncated to
the page budget. -/
def seedUrls (w : World) (base_url : String) (opts : Options) : List String :=
  (if opts.followSitemap.getD true ∧ w.sitemapOk base_url
   then get_urls_from_sitemap w base_url (effectiveMaxPages opts)
   else [base_url]).take (effectiveMaxPages opts)

/-- Embeds `WebScraper.scrape_website`: option defaults, sitemap
seeding (kept at `[base_url]` when disabled or when the parser
raises), truncation to `max_pages`, the drain loop over the initially
submitted futures in completion order, the shutdown of the pool, and
the success/error tallies. -/
def scrape_website (w : World) (base_url : String) (opts : Options) (cache : CacheState) :
    CrawlReport × CacheState :=
  let max_pages := effectiveMaxPages opts
  let crawl_subpages := opts.crawlSubpages.getD true
  let urls_to_scrape := seedUrls w base_url opts
  let st0 : CrawlState :=
    { results := [], discovered := dedupFirst urls_to_scrape, pending := [], cache := cache }
  let st := drainLoop w opts max_pages crawl_subpages (w.schedule urls_to_scrape) st0
  let finalCache := runPending w opts st.pending st.cache
  ({ baseUrl := base_url,
     totalPages := st.results.length,
     successful := (st.results.filter (fun r => r.status == "success")).length,
     failed := (st.results.filter (fun r => r.status == "error")).length,
     results := st.results }, finalCache)

/-! ### Crawl fixtures -/

/-- A world where both fetch strategies fail, with distinct reasons. -/
def wAllFail : World :=
  { zenrowsKey := true,
    zenrows := fun _ => .fail "zenrows down",
    fallback := fun _ => .fail "http timeout",
    llmEnabled := false, llmClean := fun md _ => md,
    sitemapOk := fun _ => false, sitemapFound := fun _ => [],
    crash := fun _ => none, schedule := fun l => l }

/-- The five mutually linked pages of the C1 scenario. -/
def site5 : List String :=
  ["https://s.example/p1", "https://s.example/p2", "https://s.example/p3",
   "https://s.example/p4", "https://s.example/p5"]

/-- A world serving the five-page site: no ZenRows key, every fallback
fetch succeeds and reports links to all five pages. -/
def wSite5 : World :=
  { zenrowsKey := false,
    zenrows := fun _ => .fail "unused",
    fallback := fun _ => .ok "T" "body text" site5,
    llmEnabled := false, llmClean := fun md _ => md,
    sitemapOk := fun _ => false, sitemapFound := fun _ => [],
    crash := fun _ => none, schedule := fun l => l }

/-- The C1 scenario options. -/
def opts3 : Options :=
  { maxPages := some 3, crawlSubpages := some true, followSitemap := some false }

/-- An unavailable backing store (crawls proceed uncached). -/
def emptyCache : CacheState := ⟨false, 0, []⟩

/-- An available, empty backing store. -/
def freshCache : CacheState := ⟨true, 0, []⟩

/-! ### Cache invariants used by the crawl claims -/

/-- Every value stored in the cache has status `success`. -/
def SuccessOnly (c : CacheState) : Prop :=
  ∀ e ∈ c.store, e.2.1.status = "success"

/-- Every value stored in the cache has status `success` or `error`. -/
def StatusPartitioned (c : CacheState) : Prop :=
  ∀ e ∈ c.store, e.2.1.status = "success" ∨ e.2.1.status = "error"

/-- Every cache entry sits under the key derived from its own URL (the
state left by this module's own writes). -/
def KeyConsistent (opts : Options) (c : CacheState) : Prop :=
  ∀ e ∈ c.store, e.1 = cacheKeyString e.2.1.url opts

/-! ### Supporting lemmas -/

theorem storeLookup_mem {l : List (String × PageResult × Nat)} {key : String}
    {v : PageResult} {exp : Nat} (h : storeLookup l key = some (v, exp)) :
    (key, v, exp) ∈ l := by
  induction l with
  | nil => simp [storeLookup] at h
  | cons head tail ih =>
    obtain ⟨k, v2, e2⟩ := head
    simp only [storeLookup] at h
    split at h
    · rename_i heq
      rw [Option.some.injEq, Prod.mk.injEq] at h
      obtain ⟨rfl, rfl⟩ := h
      subst heq
      exact List.mem_cons_self _ _
    · exact List.mem_cons_of_mem _ (ih h)

theorem cache_get_mem {c : CacheState} {key : String} {v : PageResult}
    (h : cache_get c key = some v) : ∃ exp, (key, v, exp) ∈ c.store := by
  unfold cache_get at h
  split at h
  · cases hl : storeLookup c.store key with
    | none => rw [hl] at h; simp at h
    | some p =>
      obtain ⟨v2, exp⟩ := p
      rw [hl] at h
      dsimp only at h
      split at h
      · rw [Option.some.injEq] at h
        subst h
        exact ⟨exp, storeLookup_mem hl⟩
      · simp at h
  · simp at h

theorem cache_set_store_cases (c : CacheState) (k : String) (v : PageResult)
    (ttl : Option Nat) :
    (cache_set c k v ttl).2.store = c.store ∨
    ∃ t, (cache_set c k v ttl).2.store = (k, v, c.clock + t) :: c.store := by
  unfold cache_set
  split
  · right
    exact ⟨_, rfl⟩
  · left
    rfl

theorem successOnly_cache_set {c : CacheState} {k : String} {v : PageResult}
    {ttl : Option Nat} (hwf : SuccessOnly c) (hv : v.status = "success") :
    SuccessOnly (cache_set c k v ttl).2 := by
  intro e he
  rcases cache_set_store_cases c k v ttl with h | ⟨t, h⟩
  · rw [h] at he; exact hwf e he
  · rw [h] at he
    rcases List.mem_cons.mp he with rfl | he
    · exact hv
    · exact hwf e he

theorem statusPartitioned_cache_set {c : CacheState} {k : String} {v : PageResult}
    {ttl : Option Nat} (hwf : StatusPartitioned c)
    (hv : v.status = "success" ∨ v.status = "error") :
    StatusPartitioned (cache_set c k v ttl).2 := by
  intro e he
  rcases cache_set_store_cases c k v ttl with h | ⟨t, h⟩
  · rw [h] at he; exact hwf e he
  · rw [h] at he
    rcases List.mem_cons.mp he with rfl | he
    · exact hv
    · exact hwf e he

theorem string_append_cancel {u u' s : String} (h : u ++ s = u' ++ s) : u = u' := by
  have hd : u.data ++ s.data = u'.data ++ s.data := by
    have h2 := congrArg String.data h
    simpa [String.data_append] using h2
  have h3 := List.append_cancel_right hd
  cases u; cases u'; simp_all

theorem cacheKeyString_inj (opts : Options) {u u' : String}
    (h : cacheKeyString u opts = cacheKeyString u' opts) : u = u' :=
  string_append_cancel h

theorem keyConsistent_cache_set {opts : Options} {c : CacheState} {u : String}
    {v : PageResult} {ttl : Option Nat} (hwf : KeyConsistent opts c)
    (hv : v.url = u) :
    KeyConsistent opts (cache_set c (cacheKeyString u opts) v ttl).2 := by
  intro e he
  rcases cache_set_store_cases c (cacheKeyString u opts) v ttl with h | ⟨t, h⟩
  · rw [h] at he; exact hwf e he
  · rw [h] at he
    rcases List.mem_cons.mp he with rfl | he
    · show cacheKeyString u opts = cacheKeyString v.url opts
      rw [hv]
    · exact hwf e he

theorem scrape_url_cases (w : World) (url : String) (opts : Options) (cache : CacheState) :
    (∃ v, cache_get cache (cacheKeyString url opts) = some v ∧
        scrape_url w url opts cache = (v, cache)) ∨
    (∃ t md l, scrape_url w url opts cache =
        ({ url := url, status := "success", title := t, description := "",
           markdown := md, links := l },
         (cache_set cache (cacheKeyString url opts)
           { url := url, status := "success", title := t, description := "",
             markdown := md, links := l } none).2)) ∨
    (∃ e, scrape_url w url opts cache =
        ({ url := url, status := "error",
           error := some ("All scraping methods failed: " ++ e) }, cache)) := by
  unfold scrape_url
  cases hg : cache_get cache (cacheKeyString url opts) with
  | some v => exact Or.inl ⟨v, rfl, rfl⟩
  | none =>
    by_cases hk : w.zenrowsKey
    · cases hz : w.zenrows url with
      | ok t x l =>
        refine Or.inr (Or.inl ⟨t, (if opts.llmFilter && w.llmEnabled
          then w.llmClean x url else x), l, ?_⟩)
        simp [hk, hz, buildResponse]
      | fail zerr =>
        cases hf : w.fallback url with
        | ok t x l =>
          refine Or.inr (Or.inl ⟨t, (if opts.llmFilter && w.llmEnabled
            then w.llmClean x url else x), l, ?_⟩)
          simp [hk, hz, hf, buildResponse]
        | fail e => exact Or.inr (Or.inr ⟨e, by simp [hk, hz, hf]⟩)
    · cases hf : w.fallback url with
      | ok t x l =>
        refine Or.inr (Or.inl ⟨t, (if opts.llmFilter && w.llmEnabled
          then w.llmClean x url else x), l, ?_⟩)
        simp [hk, hf, buildResponse]
      | fail e => exact Or.inr (Or.inr ⟨e, by simp [hk, hf]⟩)

theorem scrape_url_status (w : World) (url : String) (opts : Options) (cache : CacheState)
    (hwf : StatusPartitioned cache) :
    ((scrape_url w url opts cache).1.status = "success" ∨
      (scrape_url w url opts cache).1.status = "error") ∧
    StatusPartitioned (scrape_url w url opts cache).2 := by
  rcases scrape_url_cases w url opts cache with ⟨v, hg, he⟩ | ⟨t, md, l, he⟩ | ⟨e, he⟩
  · rw [he]
    rcases cache_get_mem hg with ⟨exp, hmem⟩
    exact ⟨hwf _ hmem, hwf⟩
  · rw [he]
    exact ⟨Or.inl rfl, statusPartitioned_cache_set hwf (Or.inl rfl)⟩
  · rw [he]
    exact ⟨Or.inr rfl, hwf⟩

theorem scrape_url_success_preserved (w : World) (url : String) (opts : Options)
    (cache : CacheState) (hwf : SuccessOnly cache) :
    SuccessOnly (scrape_url w url opts cache).2 := by
  rcases scrape_url_cases w url opts cache with ⟨v, hg, he⟩ | ⟨t, md, l, he⟩ | ⟨e, he⟩
  · rw [he]; exact hwf
  · rw [he]; exact successOnly_cache_set hwf rfl
  · rw [he]; exact hwf

theorem scrape_url_error_cache_unchanged (w : World) (url : String) (opts : Options)
    (cache : CacheState) (herr : (scrape_url w url opts cache).1.status = "error") :
    (scrape_url w url opts cache).2 = cache := by
  rcases scrape_url_cases w url opts cache with ⟨v, hg, he⟩ | ⟨t, md, l, he⟩ | ⟨e, he⟩
  · rw [he]
  · rw [he] at herr
    simp at herr
  · rw [he]

theorem scrape_url_url (w : World) (url : String) (opts : Options) (cache : CacheState)
    (hwf : KeyConsistent opts cache) :
    (scrape_url w url opts cache).1.url = url ∧
    KeyConsistent opts (scrape_url w url opts cache).2 := by
  rcases scrape_url_cases w url opts cache with ⟨v, hg, he⟩ | ⟨t, md, l, he⟩ | ⟨e, he⟩
  · rw [he]
    rcases cache_get_mem hg with ⟨exp, hmem⟩
    have hkey := hwf _ hmem
    have huu : url = v.url := cacheKeyString_inj opts hkey
    exact ⟨huu.symm, hwf⟩
  · rw [he]
    exact ⟨rfl, keyConsistent_cache_set hwf rfl⟩
  · rw [he]
    exact ⟨rfl, hwf⟩

theorem addLinks_results_cache (m : Nat) :
    ∀ (ls : List String) (st : CrawlState),
      (addLinks m ls st).results = st.results ∧ (addLinks m ls st).cache = st.cache := by
  intro ls
  induction ls with
  | nil => intro st; exact ⟨rfl, rfl⟩
  | cons l ls ih =>
    intro st
    unfold addLinks
    split
    · exact ih _
    · exact ih _

theorem stepAfterScrape_results (w : World) (opts : Options) (m : Nat) (cs : Bool)
    (url : String) (st : CrawlState) :
    (stepAfterScrape w opts m cs url st).results
      = st.results ++ [(scrape_url w url opts st.cache).1] := by
  simp only [stepAfterScrape]
  split
  · exact (addLinks_results_cache m _ _).1
  · rfl

theorem stepAfterScrape_cache (w : World) (opts : Options) (m : Nat) (cs : Bool)
    (url : String) (st : CrawlState) :
    (stepAfterScrape w opts m cs url st).cache
      = (scrape_url w url opts st.cache).2 := by
  simp only [stepAfterScrape]
  split
  · exact (addLinks_results_cache m _ _).2
  · rfl

theorem drainLoop_status (w : World) (opts : Options) (m : Nat) (cs : Bool) :
    ∀ (order : List String) (st : CrawlState),
      StatusPartitioned st.cache →
      (∀ r ∈ st.results, r.status = "success" ∨ r.status = "error") →
      ∀ r ∈ (drainLoop w opts m cs order st).results,
        r.status = "success" ∨ r.status = "error" := by
  intro order
  induction order with
  | nil => intro st hc hr; exact hr
  | cons url rest ih =>
    intro st hc hr
    unfold drainLoop
    cases hcr : w.crash url with
    | some e =>
      refine ih _ hc ?_
      intro r hmem
      rcases List.mem_append.mp hmem with h | h
      · exact hr r h
      · rw [List.mem_singleton.mp h]
        exact Or.inr rfl
    | none =>
      have hss := scrape_url_status w url opts st.cache hc
      refine ih _ ?_ ?_
      · rw [stepAfterScrape_cache]
        exact hss.2
      · rw [stepAfterScrape_results]
        intro r hmem
        rcases List.mem_append.mp hmem with h | h
        · exact hr r h
        · rw [List.mem_singleton.mp h]
          exact hss.1

theorem drainLoop_urls (w : World) (opts : Options) (m : Nat) (cs : Bool) :
    ∀ (order : List String) (st : CrawlState),
      KeyConsistent opts st.cache →
      ((drainLoop w opts m cs order st).results.map (fun r => r.url))
        = st.results.map (fun r => r.url) ++ order := by
  intro order
  induction order with
  | nil => intro st _; simp [drainLoop]
  | cons url rest ih =>
    intro st hk
    unfold drainLoop
    cases hcr : w.crash url with
    | some e =>
      dsimp only
      rw [ih { st with results := st.results
            ++ [{ url := url, status := "error", error := some e }] } hk]
      simp
    | none =>
      dsimp only
      have hu := scrape_url_url w url opts st.cache hk
      rw [ih _ (by rw [stepAfterScrape_cache]; exact hu.2)]
      rw [stepAfterScrape_results]
      simp [hu.1]

theorem length_filter_partition :
    ∀ (l : List PageResult),
      (∀ r ∈ l, r.status = "success" ∨ r.status = "error") →
      l.length = (l.filter (fun r => r.status == "success")).length
               + (l.filter (fun r => r.status == "error")).length := by
  intro l
  induction l with
  | nil => intro _; rfl
  | cons head tail ih =>
    intro h
    have hh := h head (List.mem_cons_self head tail)
    have ht := ih (fun r hr => h r (List.mem_cons_of_mem head hr))
    rcases hh with hs | hs <;>
      simp [List.filter_cons, hs, ht] <;> omega

theorem dedupFirstAux_nodup :
    ∀ (l seen : List String),
      (dedupFirstAux l seen).Nodup ∧ ∀ x ∈ dedupFirstAux l seen, x ∉ seen := by
  intro l
  induction l with
  | nil =>
    intro seen
    exact ⟨List.nodup_nil, by intro x hx; cases hx⟩
  | cons a as ih =>
    intro seen
    unfold dedupFirstAux
    split
    · exact ih seen
    · rename_i hna
      obtain ⟨hnd, hni⟩ := ih (a :: seen)
      refine ⟨List.nodup_cons.mpr ⟨?_, hnd⟩, ?_⟩
      · intro hmem
        exact (hni a hmem) (List.mem_cons_self a seen)
      · intro x hx
        rcases List.mem_cons.mp hx with rfl | hx
        · exact hna
        · intro hxs
          exact (hni x hx) (List.mem_cons_of_mem a hxs)

theorem dedupFirst_nodup (l : List String) : (dedupFirst l).Nodup :=
  (dedupFirstAux_nodup l []).1

theorem seedUrls_nodup (w : World) (base : String) (opts : Options) :
    (seedUrls w base opts).Nodup := by
  unfold seedUrls
  split
  · have h1 : (get_urls_from_sitemap w base (effectiveMaxPages opts)).Nodup :=
      List.Nodup.sublist (List.take_sublist _ _) (dedupFirst_nodup _)
    exact List.Nodup.sublist (List.take_sublist _ _) h1
  · exact List.Nodup.sublist (List.take_sublist _ _) (by simp)

theorem seedUrls_length (w : World) (base : String) (opts : Options) :
    (seedUrls w base opts).length ≤ effectiveMaxPages opts := by
  unfold seedUrls
  split <;> exact (List.length_take _ _) ▸ Nat.min_le_left _ _

theorem scrape_website_results_def (w : World) (base : String) (opts : Options)
    (cache : CacheState) :
    (scrape_website w base opts cache).1.results
      = (drainLoop w opts (effectiveMaxPages opts) (opts.crawlSubpages.getD true)
          (w.schedule (seedUrls w base opts))
          { results := [], discovered := dedupFirst (seedUrls w base opts),
            pending := [], cache := cache }).results := rfl

theorem scrape_website_totalPages (w : World) (base : String) (opts : Options)
    (cache : CacheState) :
    (scrape_website w base opts cache).1.totalPages
      = (scrape_website w base opts cache).1.results.length := rfl

theorem scrape_website_successful (w : World) (base : String) (opts : Options)
    (cache : CacheState) :
    (scrape_website w base opts cache).1.successful
      = ((scrape_website w base opts cache).1.results.filter
          (fun r => r.status == "success")).length := rfl

theorem scrape_website_failed (w : World) (base : String) (opts : Options)
    (cache : CacheState) :
    (scrape_website w base opts cache).1.failed
      = ((scrape_website w base opts cache).1.results.filter
          (fun r => r.status == "error")).length := rfl

/-! ### Claims C5 and C6: URL validation -/

/-- C5 counterexample: the claim says a loopback host is rejected even
when a port is attached, but `is_valid_url` compares the whole netloc
(`"localhost:8080"`) against the literal `"localhost"`, so the URL is
accepted. -/
theorem c5_loopback_with_port_accepted :
    is_valid_url "http://localhost:8080/admin" = true ∧
    lowerStr (netlocOf "http://localhost:8080/admin") = "localhost:8080" := by
  constructor <;> decide

/-- C5 (amended): `is_valid_url` rejects every URL whose netloc is
exactly one of `localhost`, `127.0.0.1`, `0.0.0.0`, `::1` (case
folded, no port attached), and every URL whose netloc starts with a
`10.0.0.0/8`, `172.16.0.0/12` or `192.168.0.0/16` prefix, the latter
regardless of an attached port. -/
theorem is_valid_url_rejects_blocked (url : String)
    (h : lowerStr (netlocOf url) ∈ blockedHosts ∨
         isPrivateNetloc (netlocOf url) = true) :
    is_valid_url url = false := by
  unfold is_valid_url
  split
  · rfl
  split
  · rfl
  split
  · rfl
  split
  · rfl
  split
  · rfl
  split
  · rfl
  split
  · rfl
  rename_i hblocked hprivate
  rcases h with h | h
  · exact absurd h hblocked
  · exact absurd h hprivate

/-- C5 witness: concrete loopback and private-range URLs rejected via
the theorem. -/
theorem is_valid_url_rejects_blocked_witness :
    (lowerStr (netlocOf "http://localhost/ab") ∈ blockedHosts ∧
      is_valid_url "http://localhost/ab" = false) ∧
    (isPrivateNetloc (netlocOf "http://10.0.0.5/ab") = true ∧
      is_valid_url "http://10.0.0.5/ab" = false) :=
  ⟨⟨by decide, is_valid_url_rejects_blocked _ (Or.inl (by decide))⟩,
   ⟨by decide, is_valid_url_rejects_blocked _ (Or.inr (by decide))⟩⟩

/-- C6 counterexample: the input `"example.com "` has no scheme and
passes the malicious-pattern screen, yet the returned normalized URL is
`"https://example.com"`, not `"https://" ++ "example.com "`: the
sanitizer trims the input before the scheme is prepended. -/
theorem c6_output_not_https_concat_input :
    strStartsWith "example.com " "http://" = false ∧
    strStartsWith "example.com " "https://" = false ∧
    contains_sql_injection "example.com " = false ∧
    contains_sql_injection (sanitize_input "example.com ") = false ∧
    validate_and_sanitize_url "example.com " = (true, "https://example.com", "") ∧
    ("https://example.com" = "https://" ++ "example.com " → False) := by
  refine ⟨by decide, by decide, by decide, by decide, by decide, by decide⟩

/-- C6 (amended): for every non-empty input whose sanitized form
(`sanitize_input`: NUL removal, one percent-decode, control-character
removal, trim) lacks a scheme, passes the injection screen and
validates after prepending, `validate_and_sanitize_url` returns
`https://` prepended to the sanitized input — which equals
`https://` ++ input exactly when sanitization leaves the input
unchanged. -/
theorem validate_prepends_https_to_sanitized (s : String)
    (hne : ¬ s = "")
    (h1 : strStartsWith (sanitize_input s) "http://" = false)
    (h2 : strStartsWith (sanitize_input s) "https://" = false)
    (hsql : contains_sql_injection (sanitize_input s) = false)
    (hvalid : is_valid_url ("https://" ++ sanitize_input s) = true) :
    validate_and_sanitize_url s = (true, "https://" ++ sanitize_input s, "") := by
  unfold validate_and_sanitize_url
  rw [if_neg hne]
  simp only [h1, h2, hsql, hvalid]
  simp [hvalid]

/-- C6 witness: the amended theorem applied at `"example.com"`. -/
theorem validate_prepends_https_to_sanitized_witness :
    validate_and_sanitize_url "example.com" =
      (true, "https://" ++ sanitize_input "example.com", "") :=
  validate_prepends_https_to_sanitized "example.com"
    (by decide) (by decide) (by decide) (by decide) (by decide)

/-! ### Claim C7: cache round trip, TTL expiry, silent degradation -/

/-- C7: with the backing store available, `cache_set k v` immediately
followed by `cache_get k` returns exactly `v`, and once the entry's
TTL (the default `CACHE_TTL`, as used by the scraper) has elapsed the
read returns none; with the store unavailable, `cache_set` stores
nothing and returns `False`, and `cache_get` returns none — nothing
raises. -/
theorem cache_roundtrip_ttl_and_degrade (c : CacheState) (k : String) (v : PageResult) :
    (c.available = true →
      cache_get (cache_set c k v none).2 k = some v ∧
      ∀ dt, CACHE_TTL ≤ dt →
        cache_get (advanceClock dt (cache_set c k v none).2) k = none) ∧
    (c.available = false →
      cache_set c k v none = (false, c) ∧ cache_get c k = none) := by
  constructor
  · intro hav
    constructor
    · simp [cache_set, cache_get, hav, storeLookup, CACHE_TTL]
    · intro dt hdt
      simp only [cache_set, cache_get, advanceClock, hav, if_true]
      simp [storeLookup, CACHE_TTL]
      simp only [CACHE_TTL] at hdt
      omega
  · intro hav
    constructor <;> simp [cache_set, cache_get, hav]

/-- C7 witness: the theorem applied at a concrete available store and a
concrete unavailable store. -/
theorem cache_roundtrip_ttl_and_degrade_witness :
    (cache_get (cache_set ⟨true, 0, []⟩ "k" { url := "u", status := "success" } none).2 "k"
        = some { url := "u", status := "success" } ∧
      cache_get (advanceClock 3600
          (cache_set ⟨true, 0, []⟩ "k" { url := "u", status := "success" } none).2) "k"
        = none) ∧
    (cache_set ⟨false, 0, []⟩ "k" { url := "u", status := "success" } none
        = (false, ⟨false, 0, []⟩) ∧
      cache_get ⟨false, 0, []⟩ "k" = none) :=
  ⟨⟨((cache_roundtrip_ttl_and_degrade ⟨true, 0, []⟩ "k"
        { url := "u", status := "success" }).1 rfl).1,
    ((cache_roundtrip_ttl_and_degrade ⟨true, 0, []⟩ "k"
        { url := "u", status := "success" }).1 rfl).2 3600 (by decide)⟩,
   (cache_roundtrip_ttl_and_degrade ⟨false, 0, []⟩ "k"
        { url := "u", status := "success" }).2 rfl⟩

/-! ### Claims C4 and C8: content extraction -/

/-- C4 counterexample: with `detailed=false` the claim requires `<nav>`
content to be stripped and a readability heuristic applied, but the
extracted markdown still contains the nav text, and the output is
identical to the `detailed=true` output — the flag changes nothing. -/
theorem c4_nav_kept_and_flag_inert :
    containsSub "NAVCONTENT".data
        ((extract_content c4NavDoc "https://site.example/a" false).markdown).data = true ∧
    (extract_content c4NavDoc "https://site.example/a" false).markdown = "NAVCONTENTMAIN" ∧
    extract_content c4NavDoc "https://site.example/a" false
      = extract_content c4NavDoc "https://site.example/a" true := by
  refine ⟨by decide, by decide, by decide⟩

/-- C4 (amended): extraction always strips only script/style/noscript
and converts the full noise-stripped body; nav, footer, aside and
header are kept, no main-content heuristic runs, and the `detailed`
flag has no effect on any output field. -/
theorem extract_content_ignores_detailed (soup : Node) (url : String) :
    extract_content soup url false = extract_content soup url true := rfl

/-- C8: extraction is deterministic — two calls on identical
`(html, url, detailed)` input agree on every field, the order of the
links list included; the embedding is a pure function of exactly those
inputs, with no clock or randomness oracle. -/
theorem extract_content_deterministic (soup : Node) (url : String) (detailed : Bool)
    (e1 e2 : Extraction)
    (h1 : e1 = extract_content soup url detailed)
    (h2 : e2 = extract_content soup url detailed) :
    e1.title = e2.title ∧ e1.description = e2.description ∧
    e1.markdown = e2.markdown ∧ e1.links = e2.links := by
  subst h1; subst h2
  exact ⟨rfl, rfl, rfl, rfl⟩

/-- C8 witness: the theorem applied to two calls on the concrete
fixture page. -/
theorem extract_content_deterministic_witness :
    (extract_content c8Doc "https://ex.example/p/q" true).title
        = (extract_content c8Doc "https://ex.example/p/q" true).title ∧
    (extract_content c8Doc "https://ex.example/p/q" true).description
        = (extract_content c8Doc "https://ex.example/p/q" true).description ∧
    (extract_content c8Doc "https://ex.example/p/q" true).markdown
        = (extract_content c8Doc "https://ex.example/p/q" true).markdown ∧
    (extract_content c8Doc "https://ex.example/p/q" true).links
        = (extract_content c8Doc "https://ex.example/p/q" true).links :=
  extract_content_deterministic c8Doc "https://ex.example/p/q" true
    (extract_content c8Doc "https://ex.example/p/q" true)
    (extract_content c8Doc "https://ex.example/p/q" true) rfl rfl

/-! ### Claim C1: mid-crawl submissions and the report -/

/-- C1: crawling the five-page mutually linked site with maxPages=3,
crawlSubpages=true, followSitemap=false.  The `as_completed` iterator
snapshots the single initially submitted future, so the two pages
submitted mid-crawl are executed but never yielded to the drain loop:
the report carries one result, not the three distinct results the
claim requires. -/
theorem c1_midcrawl_results_never_reported :
    (scrape_website wSite5 "https://s.example/p1" opts3 emptyCache).1.totalPages = 1 ∧
    ((scrape_website wSite5 "https://s.example/p1" opts3 emptyCache).1.results.map
        (fun r => r.url)) = ["https://s.example/p1"] ∧
    ((scrape_website wSite5 "https://s.example/p1" opts3 emptyCache).1.results.length = 3
      → False) := by
  refine ⟨by decide, by decide, by decide⟩

/-! ### Claim C2: uniqueness and budget of the reported results -/

/-- C2: for every crawl, every `as_completed` completion order (a
permutation of the initially submitted futures) and every cache state
written by this module, the reported results carry each URL at most
once and number at most the effective page budget
`min(maxPages, 500)`. -/
theorem crawl_results_unique_and_bounded (w : World) (base : String) (opts : Options)
    (cache : CacheState)
    (hsched : ∀ l : List String, (w.schedule l).Perm l)
    (hwf : KeyConsistent opts cache) :
    (((scrape_website w base opts cache).1.results.map (fun r => r.url)).Nodup) ∧
    (scrape_website w base opts cache).1.results.length
      ≤ min (opts.maxPages.getD 50) 500 := by
  have hmap := drainLoop_urls w opts (effectiveMaxPages opts) (opts.crawlSubpages.getD true)
    (w.schedule (seedUrls w base opts))
    { results := [], discovered := dedupFirst (seedUrls w base opts),
      pending := [], cache := cache } hwf
  constructor
  · rw [scrape_website_results_def, hmap]
    simp only [List.map_nil, List.nil_append]
    exact ((hsched (seedUrls w base opts)).symm).nodup (seedUrls_nodup w base opts)
  · have hlen : (scrape_website w base opts cache).1.results.length
        = (w.schedule (seedUrls w base opts)).length := by
      have h2 := congrArg List.length hmap
      simpa [scrape_website_results_def] using h2
    rw [hlen, (hsched (seedUrls w base opts)).length_eq]
    exact seedUrls_length w base opts

/-- C2 witness: the theorem applied to the five-page world (identity
completion order, empty consistent cache). -/
theorem crawl_results_unique_and_bounded_witness :
    (((scrape_website wSite5 "https://s.example/p1" opts3 emptyCache).1.results.map
        (fun r => r.url)).Nodup) ∧
    (scrape_website wSite5 "https://s.example/p1" opts3 emptyCache).1.results.length
      ≤ min (opts3.maxPages.getD 50) 500 :=
  crawl_results_unique_and_bounded wSite5 "https://s.example/p1" opts3 emptyCache
    (fun l => List.Perm.refl l) (by intro e he; simp [emptyCache] at he)

/-! ### Claim C3: aggregated failure semantics of the fetch chain -/

/-- C3 counterexample: with ZenRows failing with reason
`"zenrows down"` and the requests fallback failing with
`"http timeout"`, the returned error string carries only the
fallback's reason — the first strategy's reason appears nowhere in it,
so the error is not a concatenation of each strategy's failure
reason. -/
theorem c3_error_lacks_first_strategy_reason :
    (scrape_url wAllFail "https://ex.example/a" {} emptyCache).1.status = "error" ∧
    (scrape_url wAllFail "https://ex.example/a" {} emptyCache).1.error
      = some "All scraping methods failed: http timeout" ∧
    containsSub "zenrows down".data
      "All scraping methods failed: http timeout".data = false := by
  refine ⟨by decide, by decide, by decide⟩

/-- C3 (amended): when every strategy fails, `scrape_url` returns — it
never raises — a status-`error` result whose error string is
`"All scraping methods failed: "` followed by the final (requests
fallback) strategy's failure reason only; the earlier strategy's
reason is discarded, and the cache is untouched. -/
theorem scrape_url_all_fail_error (w : World) (url : String) (opts : Options)
    (cache : CacheState) (e : String)
    (hmiss : cache_get cache (cacheKeyString url opts) = none)
    (hz : w.zenrowsKey = false ∨ ∃ zerr, w.zenrows url = FetchOutcome.fail zerr)
    (hf : w.fallback url = FetchOutcome.fail e) :
    scrape_url w url opts cache =
      ({ url := url, status := "error",
         error := some ("All scraping methods failed: " ++ e) }, cache) := by
  unfold scrape_url
  rw [hmiss]
  rcases hz with hz | ⟨zerr, hz⟩
  · simp [hz, hf]
  · by_cases hk : w.zenrowsKey <;> simp [hk, hz, hf]

/-- C3 witness: the amended theorem applied to the all-fail world. -/
theorem scrape_url_all_fail_error_witness :
    scrape_url wAllFail "https://ex.example/a" {} emptyCache
      = ({ url := "https://ex.example/a", status := "error",
           error := some ("All scraping methods failed: " ++ "http timeout") },
         emptyCache) :=
  scrape_url_all_fail_error wAllFail "https://ex.example/a" {} emptyCache "http timeout"
    (by decide) (Or.inr ⟨"zenrows down", rfl⟩) rfl

/-! ### Claim C9: only successes reach the cache -/

/-- C9: starting from a cache whose every value has status `success`
(the state this module's own writes produce), `scrape_url` keeps that
invariant — the success dict is the only thing it ever writes — and
whenever it returns a status-`error` result the cache is exactly
unchanged. -/
theorem scrape_url_cache_success_only (w : World) (url : String) (opts : Options)
    (cache : CacheState) (hwf : SuccessOnly cache) :
    SuccessOnly (scrape_url w url opts cache).2 ∧
    ((scrape_url w url opts cache).1.status = "error" →
      (scrape_url w url opts cache).2 = cache) :=
  ⟨scrape_url_success_preserved w url opts cache hwf,
   fun herr => scrape_url_error_cache_unchanged w url opts cache herr⟩

/-- C9 witness: the theorem applied to the all-fail world over an
available empty store. -/
theorem scrape_url_cache_success_only_witness :
    SuccessOnly (scrape_url wAllFail "https://ex.example/a" {} freshCache).2 ∧
    ((scrape_url wAllFail "https://ex.example/a" {} freshCache).1.status = "error" →
      (scrape_url wAllFail "https://ex.example/a" {} freshCache).2 = freshCache) :=
  scrape_url_cache_success_only wAllFail "https://ex.example/a" {} freshCache
    (by intro e he; simp [freshCache] at he)

/-! ### Claim C10: the tallies partition the results -/

/-- C10: every result of `scrape_website` has status `success` or
`error` (a future whose callable raised becomes an error entry), so
`totalPages = successful + failed` — given a cache whose values carry
one of the two statuses, which is all this module ever stores. -/
theorem crawl_counts_partition (w : World) (base : String) (opts : Options)
    (cache : CacheState) (hwf : StatusPartitioned cache) :
    (scrape_website w base opts cache).1.totalPages
      = (scrape_website w base opts cache).1.successful
        + (scrape_website w base opts cache).1.failed ∧
    ∀ r ∈ (scrape_website w base opts cache).1.results,
      r.status = "success" ∨ r.status = "error" := by
  have hall : ∀ r ∈ (scrape_website w base opts cache).1.results,
      r.status = "success" ∨ r.status = "error" := by
    rw [scrape_website_results_def]
    exact drainLoop_status w opts (effectiveMaxPages opts) (opts.crawlSubpages.getD true)
      (w.schedule (seedUrls w base opts))
      { results := [], discovered := dedupFirst (seedUrls w base opts),
        pending := [], cache := cache }
      hwf (by intro r hr; cases hr)
  refine ⟨?_, hall⟩
  rw [scrape_website_totalPages, scrape_website_successful, scrape_website_failed]
  exact length_filter_partition _ hall

/-- C10 witness: the theorem applied to the five-page world over an
available empty store. -/
theorem crawl_counts_partition_witness :
    (scrape_website wSite5 "https://s.example/p1" opts3 freshCache).1.totalPages
      = (scrape_website wSite5 "https://s.example/p1" opts3 freshCache).1.successful
        + (scrape_website wSite5 "https://s.example/p1" opts3 freshCache).1.failed ∧
    ∀ r ∈ (scrape_website wSite5 "https://s.example/p1" opts3 freshCache).1.results,
      r.status = "success" ∨ r.status = "error" :=
  crawl_counts_partition wSite5 "https://s.example/p1" opts3 freshCache
    (by intro e he; simp [freshCache] at he)

end WebToMd
